import Mathlib

/-!
Verification of the tokenizer registry of the tantivy text-analysis
subsystem (`src/tokenizer/tokenizer_manager.rs`), together with a model of
the analysis pipelines it stores.

The registry code (`TokenizerManager::new/register/get/default`) lives in
the repository and is embedded directly from the source.  The pipeline
types it stores (`TextAnalyzer`, its builder, the tokenizer variants
`RawTokenizer`, `SimpleTokenizer`, `WhitespaceTokenizer`, the filters
`RemoveLongFilter`, `LowerCaser`, `Stemmer`, and the `Language` enum) are
declared elsewhere in the crate and are not part of the provided sources;
they are modelled here from the specification's capability contracts
(spec sections 4.2, 4.3, 4.4).
-/

namespace Tantivy

/-- Modelled from the spec: the `Language` enum of
`crate::tokenizer::stemmer`, whose declaration is not in the provided
sources.  The spec lists the supported languages: German, English,
Spanish, French, Hungarian, Italian, Dutch, Portuguese, Romanian,
Russian, Tamil. -/
inductive Language where
  | German
  | English
  | Spanish
  | French
  | Hungarian
  | Italian
  | Dutch
  | Portuguese
  | Romanian
  | Russian
  | Tamil
  deriving DecidableEq

/-- Modelled from the spec: the three tokenizer variants consumed by the
registry (`RawTokenizer`, `SimpleTokenizer`, `WhitespaceTokenizer`);
their concrete declarations are not in the provided sources. -/
inductive TokenizerKind where
  | raw
  | simple
  | whitespace
  deriving DecidableEq

/-- Modelled from the spec: the token-filter variants consumed by the
registry (`RemoveLongFilter::limit(n)`, `LowerCaser`,
`Stemmer::new(lang)`); their concrete declarations are not in the
provided sources. -/
inductive TokenFilterKind where
  | removeLong (limit : Nat)
  | lowerCaser
  | stemmer (lang : Language)
  deriving DecidableEq

/-- Modelled from the spec: a `TextAnalyzer` owns exactly one tokenizer
and an ordered sequence of token filters (spec section 4.2); the concrete
`TextAnalyzer` declaration is not in the provided sources. -/
structure TextAnalyzer where
  tokenizer : TokenizerKind
  filters : List TokenFilterKind
  deriving DecidableEq

/-- Modelled from the spec: the analyzer builder state.  `builder`
starts from a tokenizer, each `filter` call appends one filter in call
order, `build` freezes the chain (spec section 4.2). -/
structure TextAnalyzerBuilder where
  tokenizer : TokenizerKind
  filters : List TokenFilterKind

/-- Modelled from the spec: `TextAnalyzer::builder(tokenizer)`. -/
def TextAnalyzer.builder (t : TokenizerKind) : TextAnalyzerBuilder :=
  { tokenizer := t, filters := [] }

/-- Modelled from the spec: `TextAnalyzerBuilder::filter(f)` appends `f`
to the chain, preserving call order. -/
def TextAnalyzerBuilder.filter (b : TextAnalyzerBuilder) (f : TokenFilterKind) :
    TextAnalyzerBuilder :=
  { b with filters := b.filters ++ [f] }

/-- Modelled from the spec: `TextAnalyzerBuilder::build()` freezes the
chain into an immutable `TextAnalyzer`. -/
def TextAnalyzerBuilder.build (b : TextAnalyzerBuilder) : TextAnalyzer :=
  { tokenizer := b.tokenizer, filters := b.filters }

/-- Modelled from the spec: `TextAnalyzer::from(tokenizer)` for a bare
tokenizer — valid and equivalent to an identity chain (spec section
4.2). -/
def TextAnalyzer.ofTokenizer (t : TokenizerKind) : TextAnalyzer :=
  { tokenizer := t, filters := [] }

/-- Modelled from the spec: `Clone` for `TextAnalyzer` copies the
immutable configuration (tokenizer and filter chain); it never shares
mutable in-flight stream state (spec section 4.2). -/
def cloneAnalyzer (a : TextAnalyzer) : TextAnalyzer :=
  { tokenizer := a.tokenizer, filters := a.filters }

/-- Modelled from the spec: one analyzed token, carrying the byte span in
the original text, its position index, its position length, and its
current text (spec section 3, Token). -/
structure Token where
  offsetFrom : Nat
  offsetTo : Nat
  position : Nat
  positionLength : Nat
  text : String
  deriving DecidableEq

/-- Number of bytes of one character in UTF-8, used for the byte offsets
tokens carry. -/
def utf8CharBytes (c : Char) : Nat :=
  if c.toNat < 0x80 then 1
  else if c.toNat < 0x800 then 2
  else if c.toNat < 0x10000 then 3
  else 4

/-- Total UTF-8 byte length of a character list. -/
def utf8Bytes (cs : List Char) : Nat :=
  cs.foldl (fun n c => n + utf8CharBytes c) 0

/-- Modelled from the spec: shared worker for run-splitting tokenizers.
Walks the characters, keeping maximal runs of characters satisfying
`keep` as tokens; separators are never emitted.  `off` is the byte
offset of the current character, `pos` the next position index, and
`cur` the pending run (start offset and accumulated characters in
reverse), if any. -/
def tokenizeRunsGo (keep : Char → Bool) :
    List Char → Nat → Nat → Option (Nat × List Char) → List Token
  | [], _, _, none => []
  | [], off, pos, some (st, acc) =>
    [{ offsetFrom := st, offsetTo := off, position := pos,
       positionLength := 1, text := String.mk acc.reverse }]
  | c :: rest, off, pos, none =>
    if keep c then
      tokenizeRunsGo keep rest (off + utf8CharBytes c) pos (some (off, [c]))
    else
      tokenizeRunsGo keep rest (off + utf8CharBytes c) pos none
  | c :: rest, off, pos, some (st, acc) =>
    if keep c then
      tokenizeRunsGo keep rest (off + utf8CharBytes c) pos (some (st, c :: acc))
    else
      { offsetFrom := st, offsetTo := off, position := pos,
        positionLength := 1, text := String.mk acc.reverse } ::
        tokenizeRunsGo keep rest (off + utf8CharBytes c) (pos + 1) none

/-- Modelled from the spec: split `s` into maximal runs of characters
satisfying `keep`, assigning increasing byte offsets and sequential
positions starting at 0 (spec section 4.3). -/
def tokenizeRuns (keep : Char → Bool) (s : String) : List Token :=
  tokenizeRunsGo keep s.data 0 0 none

/-- Modelled from the spec: the `Raw` tokenizer emits exactly one token
spanning the entire input, unmodified text, position 0 (spec section
4.3). -/
def rawTokens (s : String) : List Token :=
  [{ offsetFrom := 0, offsetTo := utf8Bytes s.data, position := 0,
     positionLength := 1, text := s }]

/-- Modelled from the spec: the `Simple` tokenizer splits on boundaries
between alphanumeric runs and everything else; separators are never
emitted (spec section 4.3). -/
def simpleTokens (s : String) : List Token :=
  tokenizeRuns Char.isAlphanum s

/-- Modelled from the spec: the `Whitespace` tokenizer splits purely on
whitespace runs; non-whitespace runs are kept as single tokens (spec
section 4.3). -/
def whitespaceTokens (s : String) : List Token :=
  tokenizeRuns (fun c => !c.isWhitespace) s

/-- Dispatch a tokenizer variant on an input text. -/
def runTokenizer : TokenizerKind → String → List Token
  | .raw, s => rawTokens s
  | .simple, s => simpleTokens s
  | .whitespace, s => whitespaceTokens s

/-- Lowercase every character of a string. -/
def lowerCaseStr (s : String) : String :=
  String.mk (s.data.map Char.toLower)

/-- Modelled from the spec: one token filter applied to a token stream,
parameterized by the (external, language-specific, deterministic)
stemming algorithm `stem` (spec section 4.4).  `LowerCaser` lowercases
each token's text; `RemoveLongFilter(limit)` drops tokens whose text
exceeds `limit` characters without renumbering positions;
`Stemmer(lang)` replaces each token's text with its stem. -/
def applyFilter (stem : Language → String → String) :
    TokenFilterKind → List Token → List Token
  | .lowerCaser, ts => ts.map fun t => { t with text := lowerCaseStr t.text }
  | .removeLong limit, ts => ts.filter fun t => t.text.length ≤ limit
  | .stemmer lang, ts => ts.map fun t => { t with text := stem lang t.text }

/-- Modelled from the spec: execution of a `TextAnalyzer` — run the
tokenizer on the input, then fold each filter over the stream in
builder-declaration order (spec section 4.2).  The stemming algorithm is
external to this core, so it is a parameter. -/
def analyzeWith (stem : Language → String → String) (a : TextAnalyzer)
    (s : String) : List Token :=
  a.filters.foldl (fun ts f => applyFilter stem f ts) (runTokenizer a.tokenizer s)

/-! ## The registry (embedded from `tokenizer_manager.rs`)

The source struct is

  pub struct TokenizerManager \x7b tokenizers: Arc<RwLock<HashMap<String, TextAnalyzer>>> \x7d

We embed it in layers.  `RegistryMap` is the extensional content of the
`HashMap<String, TextAnalyzer>`: which analyzer, if any, each name maps
to.  `registerMap`/`getMap` are the map operations `register` and `get`
perform once the lock is held (`HashMap::insert`, `HashMap::get` +
`.cloned()`).  `LockedRegistry` adds the `RwLock` poisoning state, and
the `Arc` sharing of the handle is modelled further down by a store of
registries indexed by references. -/

/-- Extensional content of the registry's `HashMap<String, TextAnalyzer>`:
the analyzer each name maps to, if any. -/
def RegistryMap : Type := String → Option TextAnalyzer

/-- `TokenizerManager::new()` creates an empty map. -/
def emptyRegistry : RegistryMap := fun _ => none

/-- The map update performed by `TokenizerManager::register`: after
converting the argument to a `TextAnalyzer` it runs
`HashMap::insert(name.to_string(), boxed_tokenizer)` — insert or
replace. -/
def registerMap (m : RegistryMap) (name : String) (a : TextAnalyzer) :
    RegistryMap :=
  fun s => if s = name then some a else m s

/-- The lookup performed by `TokenizerManager::get`:
`HashMap::get(name).cloned()` — a clone of the stored analyzer, or
`None`. -/
def getMap (m : RegistryMap) (name : String) : Option TextAnalyzer :=
  (m name).map cloneAnalyzer

/-- `TokenizerManager::get` takes `&self` and only a read lock: it
returns the looked-up clone and leaves the registry state unchanged.
The pair makes the (absence of) state change explicit. -/
def getOp (m : RegistryMap) (name : String) :
    Option TextAnalyzer × RegistryMap :=
  (getMap m name, m)

/-- `TokenizerManager::default()`: the exact chain of `register` calls of
the source, in source order (`raw`, `default`, `de_stem`, `en_stem`,
`es_stem`, `fr_stem`, `hu_stem`, `it_stem`, `nl_stem`, `pt_stem`,
`ro_stem`, `ru_stem`, `ta_stem`, `whitespace`), each stem pipeline built
as `builder(SimpleTokenizer)
.filter(RemoveLongFilter::limit(40)).filter(LowerCaser)
.filter(Stemmer::new(lang)).build()`. -/
def tokenizerManagerDefault : RegistryMap :=
  registerMap
    (registerMap
      (registerMap
        (registerMap
          (registerMap
            (registerMap
              (registerMap
                (registerMap
                  (registerMap
                    (registerMap
                      (registerMap
                        (registerMap
                          (registerMap
                            (registerMap emptyRegistry
                              "raw" (TextAnalyzer.ofTokenizer .raw))
                            "default"
                            (((TextAnalyzer.builder .simple).filter
                                (.removeLong 40)).filter .lowerCaser).build)
                          "de_stem"
                          ((((TextAnalyzer.builder .simple).filter
                              (.removeLong 40)).filter .lowerCaser).filter
                            (.stemmer .German)).build)
                        "en_stem"
                        ((((TextAnalyzer.builder .simple).filter
                            (.removeLong 40)).filter .lowerCaser).filter
                          (.stemmer .English)).build)
                      "es_stem"
                      ((((TextAnalyzer.builder .simple).filter
                          (.removeLong 40)).filter .lowerCaser).filter
                        (.stemmer .Spanish)).build)
                    "fr_stem"
                    ((((TextAnalyzer.builder .simple).filter
                        (.removeLong 40)).filter .lowerCaser).filter
                      (.stemmer .French)).build)
                  "hu_stem"
                  ((((TextAnalyzer.builder .simple).filter
                      (.removeLong 40)).filter .lowerCaser).filter
                    (.stemmer .Hungarian)).build)
                "it_stem"
                ((((TextAnalyzer.builder .simple).filter
                    (.removeLong 40)).filter .lowerCaser).filter
                  (.stemmer .Italian)).build)
              "nl_stem"
              ((((TextAnalyzer.builder .simple).filter
                  (.removeLong 40)).filter .lowerCaser).filter
                (.stemmer .Dutch)).build)
            "pt_stem"
            ((((TextAnalyzer.builder .simple).filter
                (.removeLong 40)).filter .lowerCaser).filter
              (.stemmer .Portuguese)).build)
          "ro_stem"
          ((((TextAnalyzer.builder .simple).filter
              (.removeLong 40)).filter .lowerCaser).filter
            (.stemmer .Romanian)).build)
        "ru_stem"
        ((((TextAnalyzer.builder .simple).filter
            (.removeLong 40)).filter .lowerCaser).filter
          (.stemmer .Russian)).build)
      "ta_stem"
      ((((TextAnalyzer.builder .simple).filter
          (.removeLong 40)).filter .lowerCaser).filter
        (.stemmer .Tamil)).build)
    "whitespace" (TextAnalyzer.ofTokenizer .whitespace)

/-- The fourteen names the spec says a default-constructed manager
contains. -/
def defaultNames : List String :=
  ["raw", "default", "whitespace", "de_stem", "en_stem", "es_stem",
   "fr_stem", "hu_stem", "it_stem", "nl_stem", "pt_stem", "ro_stem",
   "ru_stem", "ta_stem"]

/-! ## The lock layer

Both `register` and `get` acquire the `RwLock` with
`.write().expect("Acquiring the lock should never fail")` resp.
`.read().expect(...)`: if the lock was poisoned by a prior panic while
held, `expect` panics (a fatal abort); otherwise the map operation runs.
We model the poison flag explicitly and the two outcomes of a call. -/

/-- Outcome of a registry call through the lock: either a normal result,
or the fatal abort `expect` raises on a poisoned lock. -/
inductive LockOutcome (α : Type) where
  | ok (a : α)
  | abort
  deriving DecidableEq

/-- The registry together with its lock's poison state. -/
structure LockedRegistry where
  poisoned : Bool
  map : RegistryMap

/-- `TokenizerManager::register` through the lock: `write().expect(...)`
aborts on a poisoned lock, otherwise performs the insert.  There is no
error return value. -/
def registerLocked (r : LockedRegistry) (name : String) (a : TextAnalyzer) :
    LockOutcome LockedRegistry :=
  if r.poisoned then .abort
  else .ok { poisoned := false, map := registerMap r.map name a }

/-- `TokenizerManager::get` through the lock: `read().expect(...)` aborts
on a poisoned lock, otherwise performs the lookup-and-clone. -/
def getLocked (r : LockedRegistry) (name : String) :
    LockOutcome (Option TextAnalyzer) :=
  if r.poisoned then .abort
  else .ok (getMap r.map name)

/-! ## The sharing layer

`TokenizerManager` is `#[derive(Clone)]` over a single
`Arc<RwLock<...>>` field, so cloning a manager copies the `Arc` pointer:
both handles refer to the same registry.  We model the heap of
registries as a store indexed by references; a manager handle is a
reference into it, and `Clone` copies the reference. -/

/-- A manager handle: the `Arc` pointer to the shared registry, modelled
as a reference into a store. -/
structure TokenizerManager where
  tokenizers : Nat

/-- The heap of registries the `Arc` references point into. -/
def RegistryStore : Type := Nat → RegistryMap

/-- `Clone` for `TokenizerManager` (`#[derive(Clone)]` over the `Arc`
field): it copies the pointer, not the registry contents. -/
def cloneManager (h : TokenizerManager) : TokenizerManager :=
  { tokenizers := h.tokenizers }

/-- `register` called through a handle: updates the one registry the
handle references, in place in the store. -/
def registerShared (s : RegistryStore) (h : TokenizerManager) (name : String)
    (a : TextAnalyzer) : RegistryStore :=
  fun i => if i = h.tokenizers then registerMap (s i) name a else s i

/-- `get` called through a handle: reads the registry the handle
references. -/
def getShared (s : RegistryStore) (h : TokenizerManager) (name : String) :
    Option TextAnalyzer :=
  getMap (s h.tokenizers) name

/-! ## The reader/writer lock and two concurrent `get` sessions

`RwLock` semantics: any number of readers may hold the lock when no
writer does; `read()` blocks only while a writer holds it.  A `get`
session is: acquire the read lock, look up and clone under it, release,
then (outside any critical section) run the clone on the caller's own
text.  We interleave two such sessions under an arbitrary schedule. -/

/-- The state of the `RwLock`: whether a writer holds it and how many
readers do. -/
structure RwLockState where
  writerHeld : Bool
  readers : Nat
  deriving DecidableEq

/-- `read()` can proceed exactly when no writer holds the lock; readers
never exclude each other. -/
def canAcquireRead (s : RwLockState) : Bool :=
  !s.writerHeld

/-- Acquiring the read lock: one more reader. -/
def acquireRead (s : RwLockState) : RwLockState :=
  { s with readers := s.readers + 1 }

/-- Releasing the read lock: one reader fewer. -/
def releaseRead (s : RwLockState) : RwLockState :=
  { s with readers := s.readers - 1 }

/-- Progress of one `get`-then-analyze session: not started; holding the
read lock; holding its private clone (lock released); finished with its
token output. -/
inductive GetPhase where
  | start
  | locked
  | cloned (a : Option TextAnalyzer)
  | finished (out : Option (List Token))
  deriving DecidableEq

/-- One atomic step of a `get("en_stem")`-then-analyze session on its own
`text`.  `none` means the thread is blocked (read lock unavailable).  A
finished thread idles. -/
def stepGet (stem : Language → String → String) (reg : RegistryMap)
    (lock : RwLockState) (text : String) :
    GetPhase → Option (GetPhase × RwLockState)
  | .start =>
    if canAcquireRead lock then some (.locked, acquireRead lock) else none
  | .locked => some (.cloned (getMap reg "en_stem"), releaseRead lock)
  | .cloned a =>
    some (.finished (a.map fun p => analyzeWith stem p text), lock)
  | .finished o => some (.finished o, lock)

/-- Joint state of the lock and the two sessions. -/
structure TwoGetState where
  lock : RwLockState
  th1 : GetPhase
  th2 : GetPhase

/-- Run the two sessions under a schedule: `true` steps thread 1 (input
`t1`), `false` steps thread 2 (input `t2`); a blocked thread loses its
slot. -/
def runSched (stem : Language → String → String) (reg : RegistryMap)
    (t1 t2 : String) : List Bool → TwoGetState → TwoGetState
  | [], st => st
  | b :: rest, st =>
    if b then
      match stepGet stem reg st.lock t1 st.th1 with
      | some (p, lock) =>
        runSched stem reg t1 t2 rest { lock := lock, th1 := p, th2 := st.th2 }
      | none => runSched stem reg t1 t2 rest st
    else
      match stepGet stem reg st.lock t2 st.th2 with
      | some (p, lock) =>
        runSched stem reg t1 t2 rest { lock := lock, th1 := st.th1, th2 := p }
      | none => runSched stem reg t1 t2 rest st

/-- Initial joint state: lock free, both sessions not started. -/
def twoGetInit : TwoGetState :=
  { lock := { writerHeld := false, readers := 0 }, th1 := .start, th2 := .start }

/-- The output a `get("en_stem")`-then-analyze session on `text` must
produce: the clone of the registered pipeline run on `text`, or `none`
when the name is unregistered. -/
def expectedOut (stem : Language → String → String) (reg : RegistryMap)
    (text : String) : Option (List Token) :=
  (getMap reg "en_stem").map fun p => analyzeWith stem p text

/-- Invariant of one session: the clone it holds and the output it
produces are determined by the registry and its own text alone. -/
def phaseOK (stem : Language → String → String) (reg : RegistryMap)
    (text : String) : GetPhase → Prop
  | .start => True
  | .locked => True
  | .cloned a => a = getMap reg "en_stem"
  | .finished o => o = expectedOut stem reg text

/-- Invariant of the two-session system: no writer ever holds the lock,
and each session's private data is determined by the registry and its
own text. -/
def twoGetInv (stem : Language → String → String) (reg : RegistryMap)
    (t1 t2 : String) (st : TwoGetState) : Prop :=
  st.lock.writerHeld = false ∧ phaseOK stem reg t1 st.th1 ∧
    phaseOK stem reg t2 st.th2

/-- One step of one session preserves its own `phaseOK` and the
writer-free lock state. -/
theorem stepGet_preserves (stem : Language → String → String)
    (reg : RegistryMap) (lock : RwLockState) (text : String) (ph : GetPhase)
    (ph' : GetPhase) (lock' : RwLockState)
    (hw : lock.writerHeld = false) (hok : phaseOK stem reg text ph)
    (hstep : stepGet stem reg lock text ph = some (ph', lock')) :
    lock'.writerHeld = false ∧ phaseOK stem reg text ph' := by
  cases ph with
  | start =>
    by_cases hc : canAcquireRead lock = true
    · rw [stepGet, if_pos hc] at hstep
      simp only [Option.some.injEq, Prod.mk.injEq] at hstep
      obtain ⟨h1, h2⟩ := hstep
      subst h1; subst h2
      exact ⟨hw, trivial⟩
    · rw [stepGet, if_neg hc] at hstep
      exact Option.noConfusion hstep
  | locked =>
    simp only [stepGet, Option.some.injEq, Prod.mk.injEq] at hstep
    obtain ⟨h1, h2⟩ := hstep
    subst h1; subst h2
    exact ⟨hw, rfl⟩
  | cloned a =>
    simp only [stepGet, Option.some.injEq, Prod.mk.injEq] at hstep
    obtain ⟨h1, h2⟩ := hstep
    subst h1; subst h2
    simp only [phaseOK] at hok
    subst hok
    exact ⟨hw, rfl⟩
  | finished o =>
    simp only [stepGet, Option.some.injEq, Prod.mk.injEq] at hstep
    obtain ⟨h1, h2⟩ := hstep
    subst h1; subst h2
    exact ⟨hw, hok⟩

/-- Running any schedule preserves the two-session invariant. -/
theorem runSched_inv (stem : Language → String → String)
    (reg : RegistryMap) (t1 t2 : String) (sched : List Bool)
    (st : TwoGetState) (h : twoGetInv stem reg t1 t2 st) :
    twoGetInv stem reg t1 t2 (runSched stem reg t1 t2 sched st) := by
  induction sched generalizing st with
  | nil => exact h
  | cons b rest ih =>
    obtain ⟨hw, h1, h2⟩ := h
    cases b with
    | true =>
      simp only [runSched]
      cases hstep : stepGet stem reg st.lock t1 st.th1 with
      | none => exact ih st ⟨hw, h1, h2⟩
      | some pl =>
        obtain ⟨ph', lock'⟩ := pl
        obtain ⟨hw', hok'⟩ :=
          stepGet_preserves stem reg st.lock t1 st.th1 ph' lock' hw h1 hstep
        exact ih _ ⟨hw', hok', h2⟩
    | false =>
      simp only [runSched]
      cases hstep : stepGet stem reg st.lock t2 st.th2 with
      | none => exact ih st ⟨hw, h1, h2⟩
      | some pl =>
        obtain ⟨ph', lock'⟩ := pl
        obtain ⟨hw', hok'⟩ :=
          stepGet_preserves stem reg st.lock t2 st.th2 ph' lock' hw h2 hstep
        exact ih _ ⟨hw', h1, hok'⟩

/-! ## The claims -/

/-- C1: for every manager state, name `n` and pipeline `p`, performing
`register(n, p)` and then `get(n)` returns `Some` of a pipeline
behaviorally equivalent to `p`: it produces the same token sequence as
`p` on every fixed input text (for every stemming algorithm the external
stemmer may implement). -/
theorem register_get_behavioral_equiv (m : RegistryMap) (n : String)
    (p : TextAnalyzer) :
    ∃ q, getMap (registerMap m n p) n = some q ∧
      ∀ (stem : Language → String → String) (text : String),
        analyzeWith stem q text = analyzeWith stem p text := by
  refine ⟨cloneAnalyzer p, ?_, ?_⟩
  · simp [getMap, registerMap]
  · intro stem text
    rfl

set_option maxHeartbeats 2000000 in
/-- C2: a default-constructed manager's map is exactly the fourteen-name
table: `raw` is the pass-through tokenizer with no filters, `whitespace`
the whitespace tokenizer with no filters, `default` the simple tokenizer
followed by `RemoveLongFilter(40)` then `LowerCaser` in that order, each
`<lang>_stem` entry is `default` plus one trailing `Stemmer` for the
corresponding language, and no other name is mapped. -/
theorem default_manager_table :
    (∀ n : String, (tokenizerManagerDefault n).isSome ↔ n ∈ defaultNames) ∧
    tokenizerManagerDefault "raw" =
      some { tokenizer := .raw, filters := [] } ∧
    tokenizerManagerDefault "whitespace" =
      some { tokenizer := .whitespace, filters := [] } ∧
    tokenizerManagerDefault "default" =
      some { tokenizer := .simple,
             filters := [.removeLong 40, .lowerCaser] } ∧
    tokenizerManagerDefault "de_stem" =
      (tokenizerManagerDefault "default").map
        (fun a => { a with filters := a.filters ++ [.stemmer .German] }) ∧
    tokenizerManagerDefault "en_stem" =
      (tokenizerManagerDefault "default").map
        (fun a => { a with filters := a.filters ++ [.stemmer .English] }) ∧
    tokenizerManagerDefault "es_stem" =
      (tokenizerManagerDefault "default").map
        (fun a => { a with filters := a.filters ++ [.stemmer .Spanish] }) ∧
    tokenizerManagerDefault "fr_stem" =
      (tokenizerManagerDefault "default").map
        (fun a => { a with filters := a.filters ++ [.stemmer .French] }) ∧
    tokenizerManagerDefault "hu_stem" =
      (tokenizerManagerDefault "default").map
        (fun a => { a with filters := a.filters ++ [.stemmer .Hungarian] }) ∧
    tokenizerManagerDefault "it_stem" =
      (tokenizerManagerDefault "default").map
        (fun a => { a with filters := a.filters ++ [.stemmer .Italian] }) ∧
    tokenizerManagerDefault "nl_stem" =
      (tokenizerManagerDefault "default").map
        (fun a => { a with filters := a.filters ++ [.stemmer .Dutch] }) ∧
    tokenizerManagerDefault "pt_stem" =
      (tokenizerManagerDefault "default").map
        (fun a => { a with filters := a.filters ++ [.stemmer .Portuguese] }) ∧
    tokenizerManagerDefault "ro_stem" =
      (tokenizerManagerDefault "default").map
        (fun a => { a with filters := a.filters ++ [.stemmer .Romanian] }) ∧
    tokenizerManagerDefault "ru_stem" =
      (tokenizerManagerDefault "default").map
        (fun a => { a with filters := a.filters ++ [.stemmer .Russian] }) ∧
    tokenizerManagerDefault "ta_stem" =
      (tokenizerManagerDefault "default").map
        (fun a => { a with filters := a.filters ++ [.stemmer .Tamil] }) := by
  refine ⟨?_, by decide⟩
  intro n
  constructor
  · intro h
    by_contra hmem
    simp only [defaultNames, List.mem_cons, List.not_mem_nil, or_false,
      not_or] at hmem
    obtain ⟨h1, h2, h3, h4, h5, h6, h7, h8, h9, h10, h11, h12, h13, h14⟩ :=
      hmem
    simp only [tokenizerManagerDefault, registerMap, emptyRegistry, h1, h2,
      h3, h4, h5, h6, h7, h8, h9, h10, h11, h12, h13, h14, if_false,
      Option.isSome_none] at h
    exact Bool.noConfusion h
  · intro h
    simp only [defaultNames, List.mem_cons, List.not_mem_nil, or_false] at h
    rcases h with rfl | rfl | rfl | rfl | rfl | rfl | rfl | rfl | rfl | rfl |
      rfl | rfl | rfl | rfl <;> decide

/-- C2 witness: the name-containment equivalence evaluated at
`en_stem`. -/
theorem default_manager_table_witness :
    (tokenizerManagerDefault "en_stem").isSome = true :=
  (default_manager_table.1 "en_stem").mpr (by decide)

/-- C3: after `register(n, p1)` then `register(n, p2)`, `get(n)` returns
a clone of `p2` only; `p1` is no longer observable under `n`. -/
theorem register_overwrites (m : RegistryMap) (n : String)
    (p1 p2 : TextAnalyzer) :
    getMap (registerMap (registerMap m n p1) n p2) n =
      some (cloneAnalyzer p2) ∧ cloneAnalyzer p2 = p2 := by
  constructor
  · simp [getMap, registerMap]
  · rfl

/-- C4: for every manager state and every name with no registered
pipeline, `get` returns `None`; with an unpoisoned lock the call is a
normal return, never an abort. -/
theorem get_unregistered_none (r : LockedRegistry) (n : String)
    (hp : r.poisoned = false) (hn : r.map n = none) :
    getLocked r n = .ok none ∧ getMap r.map n = none := by
  constructor
  · simp [getLocked, hp, getMap, hn]
  · simp [getMap, hn]

/-- C4 witness: the default manager at an unregistered name. -/
theorem get_unregistered_none_witness :
    getLocked ⟨false, tokenizerManagerDefault⟩ "no_such_pipeline" =
      .ok none ∧
    getMap tokenizerManagerDefault "no_such_pipeline" = none :=
  get_unregistered_none ⟨false, tokenizerManagerDefault⟩ "no_such_pipeline"
    rfl (by decide)

/-- C5: `get` leaves the registry's mapping unchanged; when the name is
bound to a stored entry `a`, the returned value is `some` of a clone of
`a`, that clone behaves exactly like `a` on every input, and the
registry still maps the name to `a` afterwards. -/
theorem get_frame_and_clone (m : RegistryMap) (n : String)
    (a : TextAnalyzer) (stem : Language → String → String) (text : String)
    (h : m n = some a) :
    (getOp m n).2 = m ∧ (getOp m n).1 = some (cloneAnalyzer a) ∧
    analyzeWith stem (cloneAnalyzer a) text = analyzeWith stem a text ∧
    (getOp m n).2 n = some a := by
  refine ⟨rfl, ?_, rfl, h⟩
  simp [getOp, getMap, h]

/-- C5 witness: getting `raw` from the default manager. -/
theorem get_frame_and_clone_witness :
    (getOp tokenizerManagerDefault "raw").2 = tokenizerManagerDefault ∧
    (getOp tokenizerManagerDefault "raw").1 =
      some (cloneAnalyzer { tokenizer := .raw, filters := [] }) ∧
    analyzeWith (fun _ s => s)
        (cloneAnalyzer { tokenizer := .raw, filters := [] }) "abc" =
      analyzeWith (fun _ s => s) { tokenizer := .raw, filters := [] } "abc" ∧
    (getOp tokenizerManagerDefault "raw").2 "raw" =
      some { tokenizer := .raw, filters := [] } :=
  get_frame_and_clone tokenizerManagerDefault "raw"
    { tokenizer := .raw, filters := [] } (fun _ s => s) "abc" (by decide)

/-- C6: `register(n, p)` changes only the binding for `n`: for every
other name `t`, `get(t)` is unchanged. -/
theorem register_frame (m : RegistryMap) (n : String) (p : TextAnalyzer)
    (t : String) (h : t ≠ n) :
    getMap (registerMap m n p) t = getMap m t := by
  simp [getMap, registerMap, h]

/-- C6 witness: registering a custom pipeline leaves `default`
untouched. -/
theorem register_frame_witness :
    getMap
      (registerMap tokenizerManagerDefault "custom"
        { tokenizer := .raw, filters := [] }) "default" =
      getMap tokenizerManagerDefault "default" :=
  register_frame tokenizerManagerDefault "custom"
    { tokenizer := .raw, filters := [] } "default" (by decide)

/-- C7: cloning a manager copies the `Arc` reference, not the registry
contents, so a `register` through either handle is observable via `get`
through the other. -/
theorem clone_shares_registry (s : RegistryStore) (h : TokenizerManager)
    (n : String) (p : TextAnalyzer) :
    cloneManager h = h ∧
    getShared (registerShared s (cloneManager h) n p) h n =
      some (cloneAnalyzer p) ∧
    getShared (registerShared s h n p) (cloneManager h) n =
      some (cloneAnalyzer p) := by
  refine ⟨rfl, ?_, ?_⟩ <;>
    simp [cloneManager, registerShared, getShared, getMap, registerMap]

/-- C8: with an unpoisoned lock, `register` returns normally with the
inserted binding (there is no error return value at all) and neither
`register` nor `get` reaches the abort branch. -/
theorem register_total_no_error (r : LockedRegistry) (n : String)
    (p : TextAnalyzer) (hp : r.poisoned = false) :
    registerLocked r n p =
      .ok { poisoned := false, map := registerMap r.map n p } ∧
    registerLocked r n p ≠ .abort ∧ getLocked r n ≠ .abort := by
  refine ⟨?_, ?_, ?_⟩ <;> simp [registerLocked, getLocked, hp]

/-- C8 witness: registering into the default manager with a healthy
lock. -/
theorem register_total_no_error_witness :
    registerLocked ⟨false, tokenizerManagerDefault⟩ "custom"
        { tokenizer := .raw, filters := [] } =
      .ok { poisoned := false,
            map := registerMap tokenizerManagerDefault "custom"
              { tokenizer := .raw, filters := [] } } ∧
    registerLocked ⟨false, tokenizerManagerDefault⟩ "custom"
        { tokenizer := .raw, filters := [] } ≠ .abort ∧
    getLocked ⟨false, tokenizerManagerDefault⟩ "custom" ≠ .abort :=
  register_total_no_error ⟨false, tokenizerManagerDefault⟩ "custom"
    { tokenizer := .raw, filters := [] } rfl

/-- C9: under every interleaving of two `get("en_stem")`-then-analyze
sessions, the read lock stays acquirable at every point (a session
holding it never blocks the other, and since this holds for every
schedule it holds at every reachable state), and each session that
finishes produces exactly the analysis of its own text — never
contaminated by the other session's input. -/
theorem concurrent_gets_independent (stem : Language → String → String)
    (reg : RegistryMap) (t1 t2 : String) (sched : List Bool) :
    canAcquireRead (runSched stem reg t1 t2 sched twoGetInit).lock = true ∧
    (∀ o, (runSched stem reg t1 t2 sched twoGetInit).th1 = .finished o →
      o = expectedOut stem reg t1) ∧
    (∀ o, (runSched stem reg t1 t2 sched twoGetInit).th2 = .finished o →
      o = expectedOut stem reg t2) := by
  have hinv := runSched_inv stem reg t1 t2 sched twoGetInit
    ⟨rfl, trivial, trivial⟩
  obtain ⟨hw, h1, h2⟩ := hinv
  refine ⟨?_, ?_, ?_⟩
  · simp [canAcquireRead, hw]
  · intro o ho
    rw [ho] at h1
    exact h1
  · intro o ho
    rw [ho] at h2
    exact h2

/-- C9 witness: a concrete schedule in which both sessions finish on the
default manager, each producing the analysis of its own text. -/
theorem concurrent_gets_independent_witness :
    canAcquireRead
      (runSched (fun _ s => s) tokenizerManagerDefault "Hello" "World"
        [true, true, true, false, false, false] twoGetInit).lock = true ∧
    some [{ offsetFrom := 0, offsetTo := 5, position := 0,
            positionLength := 1, text := "hello" }] =
      expectedOut (fun _ s => s) tokenizerManagerDefault "Hello" :=
  ⟨(concurrent_gets_independent (fun _ s => s) tokenizerManagerDefault
      "Hello" "World" [true, true, true, false, false, false]).1,
   (concurrent_gets_independent (fun _ s => s) tokenizerManagerDefault
      "Hello" "World" [true, true, true, false, false, false]).2.1
     (some [{ offsetFrom := 0, offsetTo := 5, position := 0,
              positionLength := 1, text := "hello" }]) (by decide)⟩

/-- C10: names are opaque exact-match keys with no validation: for every
string `s` (including the empty string and strings with whitespace or
non-ASCII characters), `register(s, p)` then `get(s)` returns `Some`
clone of `p`, while `get(t)` for any `t` not byte-for-byte equal to a
registered name returns `None`. -/
theorem names_opaque_exact_match (m : RegistryMap) (s t : String)
    (p : TextAnalyzer) (hne : t ≠ s) (hm : m t = none) :
    getMap (registerMap m s p) s = some (cloneAnalyzer p) ∧
    cloneAnalyzer p = p ∧
    getMap (registerMap m s p) t = none := by
  refine ⟨?_, rfl, ?_⟩
  · simp [getMap, registerMap]
  · simp [getMap, registerMap, hne, hm]

/-- C10 witness: a name with whitespace and non-ASCII characters
registers and resolves; the empty string, unregistered, resolves to
none. -/
theorem names_opaque_exact_match_witness :
    getMap
      (registerMap tokenizerManagerDefault "wéird name\t"
        { tokenizer := .raw, filters := [] }) "wéird name\t" =
      some (cloneAnalyzer { tokenizer := .raw, filters := [] }) ∧
    cloneAnalyzer { tokenizer := .raw, filters := [] } =
      { tokenizer := .raw, filters := [] } ∧
    getMap
      (registerMap tokenizerManagerDefault "wéird name\t"
        { tokenizer := .raw, filters := [] }) "" = none :=
  names_opaque_exact_match tokenizerManagerDefault "wéird name\t" ""
    { tokenizer := .raw, filters := [] } (by decide) (by decide)

end Tantivy
